import Mathlib

/-!
Verification of the test-result aggregation and comparison subsystem of
`run_obfuscator.py` (functions `parse_test_results`,
`print_detailed_test_report`, `compare_test_results`, `get_metric_value`).

The embedding is shallow: XML report documents become Lean structures,
Python `int` becomes `Int`, Python `float` becomes `ℚ`, Python dicts keyed
by strings become association lists with overwrite-on-insert, and a Python
expression that can raise `ZeroDivisionError` becomes an `Except`-valued
function whose error case is exactly the zero-denominator case.
-/

namespace RunObfuscator

/-- Status values assigned to a test case by `parse_test_results`. -/
inductive Status where
  | PASSED
  | FAILED
  | SKIPPED
deriving DecidableEq

/-- A `<failure>` or `<error>` child element of a `<testcase>`: its `type`
and `message` attributes, each possibly absent. -/
structure FailureNode where
  type_ : Option String
  message : Option String
deriving DecidableEq

/-- A `<testcase>` element as read from a report document: `name`,
`classname` and `time` attributes (absent attributes are `none`; `time`
is parsed with default 0 by the caller), and the optional `<failure>`,
`<error>` and `<skipped>` children. -/
structure RawCase where
  name : Option String
  classname : Option String
  time : ℚ
  failure : Option FailureNode
  error : Option FailureNode
  skipped : Bool
deriving DecidableEq

/-- The root `<testsuite>` element of one successfully parsed report
document: integer attributes `tests`, `failures`, `errors`, `skipped`,
real attribute `time`, optional `name`, and the test-case children. -/
structure TestSuite where
  tests : Int
  failures : Int
  errors : Int
  skipped : Int
  time : ℚ
  name : Option String
  testcases : List RawCase
deriving DecidableEq

/-- The `test_info` dict built for one test case by `parse_test_results`:
keys `suite`, `name`, `class`, `time`, `status`, and the conditionally
present failure/error detail keys (absent key = `none`). -/
structure TestInfo where
  suite : String
  name : String
  className : String
  time : ℚ
  status : Status
  failure_type : Option String
  failure_message : Option String
  error_type : Option String
  error_message : Option String
deriving DecidableEq

/-- The `results` dict of `parse_test_results`: counters, the list of
per-test-case records in discovery order, and the cumulative time. -/
structure Results where
  total : Int
  passed : Int
  failed : Int
  skipped : Int
  tests : List TestInfo
  total_time : ℚ
deriving DecidableEq

/-- The initial `results` dict (all counters 0, no tests). -/
def initResults : Results :=
  { total := 0, passed := 0, failed := 0, skipped := 0, tests := [], total_time := 0 }

/-- Builds the `test_info` record for one test case, mirroring the loop
body of `parse_test_results`: status starts `PASSED`; a failure or error
child overwrites it with `FAILED` and captures type/message attributes
(defaults `"Unknown"` / `"No message"`); a skipped child then overwrites
the status with `SKIPPED`. -/
def mkTestInfo (suiteName : String) (c : RawCase) : TestInfo :=
  let base : TestInfo :=
    { suite := suiteName
      name := c.name.getD "Unknown"
      className := c.classname.getD "Unknown"
      time := c.time
      status := Status.PASSED
      failure_type := none, failure_message := none
      error_type := none, error_message := none }
  let afterFailure : TestInfo :=
    if c.failure.isSome || c.error.isSome then
      { base with
        status := Status.FAILED
        failure_type := c.failure.map (fun f => f.type_.getD "Unknown")
        failure_message := c.failure.map (fun f => f.message.getD "No message")
        error_type := c.error.map (fun e => e.type_.getD "Unknown")
        error_message := c.error.map (fun e => e.message.getD "No message") }
    else base
  if c.skipped then { afterFailure with status := Status.SKIPPED } else afterFailure

/-- Folds one parsed report document into the running `results`, mirroring
the per-file body of the loop in `parse_test_results`. -/
def foldSuite (r : Results) (s : TestSuite) : Results :=
  { r with
    total := r.total + s.tests
    failed := r.failed + s.failures + s.errors
    skipped := r.skipped + s.skipped
    total_time := r.total_time + s.time
    tests := r.tests ++ s.testcases.map (mkTestInfo (s.name.getD "Unknown")) }

/-- Aggregation of a list of successfully parsed report documents:
fold every document into the running totals, then derive `passed` once at
the end as `total - failed - skipped`. -/
def parseDocs (docs : List TestSuite) : Results :=
  let r := docs.foldl foldSuite initResults
  { r with passed := r.total - r.failed - r.skipped }

/-- `parse_test_results`. The input is `none` when the results directory
does not exist (the function returns `None`); otherwise it is the list of
XML files found, each being `some` parsed document or `none` for a file
whose parse raised (such a file is skipped by the `except` handler and
contributes nothing). -/
def parse_test_results (dir : Option (List (Option TestSuite))) : Option Results :=
  match dir with
  | none => none
  | some files =>
    let r := files.foldl
      (fun r f =>
        match f with
        | none => r
        | some s => foldSuite r s)
      initResults
    some { r with passed := r.total - r.failed - r.skipped }

/-- Python division: raises `ZeroDivisionError` when the denominator is 0,
otherwise yields the exact quotient. -/
def pyDiv (a b : ℚ) : Except String ℚ :=
  if b = 0 then Except.error "ZeroDivisionError" else Except.ok (a / b)

/-- Rank of a status under the sort key of `print_detailed_test_report`:
`0 if x.status == FAILED else (1 if x.status == SKIPPED else 2)`. -/
def statusRank : Status → Nat
  | Status.FAILED => 0
  | Status.SKIPPED => 1
  | Status.PASSED => 2

/-- The (boolean, total) comparison induced by the sort key
`(statusRank x.status, -x.time)` compared lexicographically, as Python
compares key tuples. -/
def testLe (a b : TestInfo) : Bool :=
  decide (statusRank a.status < statusRank b.status) ||
    (decide (statusRank a.status = statusRank b.status) && decide (-a.time ≤ -b.time))

/-- The `sorted(results['tests'], key=...)` call of
`print_detailed_test_report`; Python's sort is stable, modelled by the
stable `List.mergeSort`. -/
def sortTests (tests : List TestInfo) : List TestInfo :=
  tests.mergeSort testLe

/-- The data computed by `print_detailed_test_report` before formatting:
the three percentages of the summary block and the sorted per-test table. -/
structure DetailedReport where
  passedPct : ℚ
  failedPct : ℚ
  skippedPct : ℚ
  table : List TestInfo
deriving DecidableEq

/-- `print_detailed_test_report`, reduced to the data it computes. A falsy
`results` (i.e. `None`: the dict built by the parser is never empty) takes
the early `return`; otherwise the three percentages divide by
`results['total']` with Python division, and the table is the stable sort
of the tests. -/
def print_detailed_test_report (results : Option Results) :
    Except String (Option DetailedReport) :=
  match results with
  | none => Except.ok none
  | some r => do
    let p ← pyDiv (r.passed : ℚ) (r.total : ℚ)
    let f ← pyDiv (r.failed : ℚ) (r.total : ℚ)
    let s ← pyDiv (r.skipped : ℚ) (r.total : ℚ)
    Except.ok (some
      { passedPct := p * 100, failedPct := f * 100, skippedPct := s * 100
        table := sortTests r.tests })

/-- The metrics list built by `compare_test_results` (name, base value,
other value), with the pass-rate conditional written inline as in the
source: `passed/total*100 if total > 0 else 0`. -/
def metricsOf (base other : Results) : List (String × ℚ × ℚ) :=
  [("Total Tests", (base.total : ℚ), (other.total : ℚ)),
   ("Passed Tests", (base.passed : ℚ), (other.passed : ℚ)),
   ("Failed Tests", (base.failed : ℚ), (other.failed : ℚ)),
   ("Skipped Tests", (base.skipped : ℚ), (other.skipped : ℚ)),
   ("Pass Rate (%)",
     if 0 < base.total then (base.passed : ℚ) / (base.total : ℚ) * 100 else 0,
     if 0 < other.total then (other.passed : ℚ) / (other.total : ℚ) * 100 else 0),
   ("Total Execution Time (s)", base.total_time, other.total_time)]

/-- The pass-rate expression of the Comparator with Python division made
explicit: the division is only reached when `total > 0`. -/
def passRateChecked (r : Results) : Except String ℚ :=
  if 0 < r.total then do
    let q ← pyDiv (r.passed : ℚ) (r.total : ℚ)
    Except.ok (q * 100)
  else Except.ok 0

/-- `get_metric_value` (the Reporter's metric extraction): `None` for an
absent result set or an unknown metric name. -/
def get_metric_value (results : Option Results) (metric : String) : Option ℚ :=
  match results with
  | none => none
  | some r =>
    if metric = "Total Tests" then some (r.total : ℚ)
    else if metric = "Passed Tests" then some (r.passed : ℚ)
    else if metric = "Failed Tests" then some (r.failed : ℚ)
    else if metric = "Skipped Tests" then some (r.skipped : ℚ)
    else if metric = "Pass Rate (%)" then
      some (if 0 < r.total then (r.passed : ℚ) / (r.total : ℚ) * 100 else 0)
    else if metric = "Total Execution Time (s)" then some r.total_time
    else none

/-- The identity key `f"{test['class']}::{test['name']}"`. -/
def identityKey (t : TestInfo) : String :=
  t.className ++ "::" ++ t.name

/-- Insertion into a Python dict: an existing key keeps its position and
gets the new value; a new key is appended. -/
def dictInsert (m : List (String × TestInfo)) (k : String) (v : TestInfo) :
    List (String × TestInfo) :=
  if (m.find? fun p => decide (p.1 = k)).isSome then
    m.map fun p => if p.1 = k then (p.1, v) else p
  else m ++ [(k, v)]

/-- Dict lookup. -/
def dictGet (m : List (String × TestInfo)) (k : String) : Option TestInfo :=
  (m.find? fun p => decide (p.1 = k)).map (·.2)

/-- The dict comprehension `{f"{class}::{name}": test for test in tests}`:
later occurrences of a key overwrite earlier ones. -/
def test_methods (tests : List TestInfo) : List (String × TestInfo) :=
  tests.foldl (fun m t => dictInsert m (identityKey t) t) []

/-- `set(dict.keys())`. -/
def keysOf (m : List (String × TestInfo)) : Finset String :=
  (m.map (·.1)).toFinset

/-- The data computed by `compare_test_results`: the metric rows with
their differences, the two unique-identity sets, and the status-transition
list (sorted by identity, as printed). -/
structure ComparisonReport where
  label : String
  metrics : List (String × ℚ × ℚ × ℚ)
  baseOnly : Finset String
  otherOnly : Finset String
  changes : List (String × Status × Status)
deriving DecidableEq

/-- `compare_test_results(original_results, other_results, other_name)`.
Returns `none` (plain early return) when either result set is absent; the
difference of each metric row is computed as `other_value - original_value`
in the printing loop. -/
def compare_test_results (base other : Option Results) (label : String) :
    Option ComparisonReport :=
  match base, other with
  | some b, some o =>
    let mb := test_methods b.tests
    let mo := test_methods o.tests
    some
      { label := label
        metrics := (metricsOf b o).map fun p => (p.1, p.2.1, p.2.2, p.2.2 - p.2.1)
        baseOnly := keysOf mb \ keysOf mo
        otherOnly := keysOf mo \ keysOf mb
        changes :=
          ((keysOf mb ∩ keysOf mo).sort (· ≤ ·)).filterMap fun k =>
            match dictGet mb k, dictGet mo k with
            | some tb, some tOther =>
              if tb.status ≠ tOther.status then some (k, tb.status, tOther.status)
              else none
            | _, _ => none }
  | _, _ => none

/-- Closed form of the document fold: each counter of the accumulator grows
by the corresponding per-document sum, `passed` is untouched by the loop,
and the test-case records are appended in discovery order. -/
theorem foldSuite_foldl (docs : List TestSuite) (r : Results) :
    docs.foldl foldSuite r =
      { total := r.total + (docs.map (·.tests)).sum
        passed := r.passed
        failed := r.failed + (docs.map (fun d => d.failures + d.errors)).sum
        skipped := r.skipped + (docs.map (·.skipped)).sum
        tests := r.tests ++
          docs.flatMap (fun d => d.testcases.map (mkTestInfo (d.name.getD "Unknown")))
        total_time := r.total_time + (docs.map (·.time)).sum } := by
  induction docs generalizing r with
  | nil => simp
  | cons d ds ih =>
    rw [List.foldl_cons, ih]
    simp only [foldSuite, List.map_cons, List.sum_cons, List.flatMap_cons,
      List.append_assoc, Results.mk.injEq, add_assoc]

/-- C4: for every list of successfully parsed report documents,
`passed + failed + skipped = total` holds of the aggregated result, and
`passed` is only derived after the fold: the fold itself leaves the
`passed` counter at its initial value 0. -/
theorem parse_passed_balances (docs : List TestSuite) :
    (parseDocs docs).passed + (parseDocs docs).failed + (parseDocs docs).skipped =
      (parseDocs docs).total ∧
    (docs.foldl foldSuite initResults).passed = 0 := by
  constructor
  · simp only [parseDocs]
    ring
  · rw [foldSuite_foldl]
    rfl

/-- C3 counterexample: a single report document whose root attributes read
`tests="0" failures="1"` produces a ResultSet with a negative `passed`
count, refuting the claim that all four counts are always non-negative. -/
theorem parse_passed_negative_cex :
    (parseDocs
      [{ tests := 0, failures := 1, errors := 0, skipped := 0, time := 0,
         name := none, testcases := [] }]).passed < 0 := by decide

/-- C3 (amended): when every document's root attributes are non-negative,
the aggregated `total`, `failed`, `skipped` counts and the cumulative time
are non-negative; the derived `passed` count can still be negative (see the
counterexample), so it is excluded. -/
theorem parse_counts_nonneg (docs : List TestSuite)
    (h : ∀ d ∈ docs, 0 ≤ d.tests ∧ 0 ≤ d.failures ∧ 0 ≤ d.errors ∧
      0 ≤ d.skipped ∧ 0 ≤ d.time) :
    0 ≤ (parseDocs docs).total ∧ 0 ≤ (parseDocs docs).failed ∧
      0 ≤ (parseDocs docs).skipped ∧ 0 ≤ (parseDocs docs).total_time := by
  simp only [parseDocs, foldSuite_foldl, initResults, zero_add]
  refine ⟨List.sum_nonneg ?_, List.sum_nonneg ?_, List.sum_nonneg ?_,
    List.sum_nonneg ?_⟩ <;>
    · intro x hx
      simp only [List.mem_map] at hx
      obtain ⟨d, hd, rfl⟩ := hx
      have := h d hd
      first
        | exact this.1
        | exact this.2.2.2.1
        | exact this.2.2.2.2
        | exact add_nonneg this.2.1 this.2.2.1

theorem parse_counts_nonneg_witness :
    0 ≤ (parseDocs
      [{ tests := 3, failures := 1, errors := 0, skipped := 1, time := 1,
         name := some "SuiteA", testcases := [] }]).total ∧
    0 ≤ (parseDocs
      [{ tests := 3, failures := 1, errors := 0, skipped := 1, time := 1,
         name := some "SuiteA", testcases := [] }]).failed ∧
    0 ≤ (parseDocs
      [{ tests := 3, failures := 1, errors := 0, skipped := 1, time := 1,
         name := some "SuiteA", testcases := [] }]).skipped ∧
    0 ≤ (parseDocs
      [{ tests := 3, failures := 1, errors := 0, skipped := 1, time := 1,
         name := some "SuiteA", testcases := [] }]).total_time :=
  parse_counts_nonneg _ (by
    intro d hd
    simp only [List.mem_singleton] at hd
    subst hd
    refine ⟨by norm_num, by norm_num, by norm_num, by norm_num, by norm_num⟩)

/-- C5: folding the report documents in any other order yields the same
five totals, and the per-test-case collection differs at most by a
permutation (discovery order). -/
theorem parse_perm_invariant (docs1 docs2 : List TestSuite) (h : docs1.Perm docs2) :
    (parseDocs docs1).total = (parseDocs docs2).total ∧
    (parseDocs docs1).passed = (parseDocs docs2).passed ∧
    (parseDocs docs1).failed = (parseDocs docs2).failed ∧
    (parseDocs docs1).skipped = (parseDocs docs2).skipped ∧
    (parseDocs docs1).total_time = (parseDocs docs2).total_time ∧
    (parseDocs docs1).tests.Perm (parseDocs docs2).tests := by
  have htot : (docs1.map (·.tests)).sum = (docs2.map (·.tests)).sum :=
    (h.map _).sum_eq
  have hfail : (docs1.map (fun d => d.failures + d.errors)).sum =
      (docs2.map (fun d => d.failures + d.errors)).sum := (h.map _).sum_eq
  have hskip : (docs1.map (·.skipped)).sum = (docs2.map (·.skipped)).sum :=
    (h.map _).sum_eq
  have htime : (docs1.map (·.time)).sum = (docs2.map (·.time)).sum :=
    (h.map _).sum_eq
  simp only [parseDocs, foldSuite_foldl, initResults, zero_add, List.nil_append,
    htot, hfail, hskip, htime]
  exact ⟨trivial, trivial, trivial, trivial, trivial, h.flatMap_right _⟩

def suiteA : TestSuite :=
  { tests := 3, failures := 1, errors := 0, skipped := 0, time := (6/5 : ℚ),
    name := some "SuiteA", testcases := [] }

def suiteB : TestSuite :=
  { tests := 2, failures := 0, errors := 0, skipped := 1, time := (7/10 : ℚ),
    name := some "SuiteB", testcases := [] }

theorem parse_perm_invariant_witness :
    (parseDocs [suiteA, suiteB]).total = (parseDocs [suiteB, suiteA]).total ∧
    (parseDocs [suiteA, suiteB]).passed = (parseDocs [suiteB, suiteA]).passed ∧
    (parseDocs [suiteA, suiteB]).failed = (parseDocs [suiteB, suiteA]).failed ∧
    (parseDocs [suiteA, suiteB]).skipped = (parseDocs [suiteB, suiteA]).skipped ∧
    (parseDocs [suiteA, suiteB]).total_time = (parseDocs [suiteB, suiteA]).total_time ∧
    (parseDocs [suiteA, suiteB]).tests.Perm (parseDocs [suiteB, suiteA]).tests :=
  parse_perm_invariant [suiteA, suiteB] [suiteB, suiteA]
    (List.Perm.swap suiteB suiteA [])

/-- Skipping the files whose parse raised is the same as folding only the
successfully parsed files. -/
theorem foldl_skip_none (files : List (Option TestSuite)) (r : Results) :
    files.foldl
        (fun r f =>
          match f with
          | none => r
          | some s => foldSuite r s)
        r =
      (files.filterMap id).foldl foldSuite r := by
  induction files generalizing r with
  | nil => rfl
  | cons f fs ih =>
    cases f with
    | none => simpa using ih r
    | some s => simpa using ih (foldSuite r s)

/-- C8: the Parser is never fatal. A missing results directory yields
`None` ("no results available"); an existing directory always yields a
result set (`some`), equal to the aggregation of exactly the documents
that parsed successfully (malformed ones are skipped); a directory with no
matching documents yields the empty ResultSet. -/
theorem parser_recovers (files : List (Option TestSuite)) :
    parse_test_results none = none ∧
    parse_test_results (some files) = some (parseDocs (files.filterMap id)) ∧
    parse_test_results (some []) =
      some { total := 0, passed := 0, failed := 0, skipped := 0, tests := [],
             total_time := 0 } := by
  refine ⟨rfl, ?_, by decide⟩
  simp only [parse_test_results, parseDocs, foldl_skip_none]

@[simp] theorem except_bind_error {ε α β : Type} (e : ε) (f : α → Except ε β) :
    (Except.error e : Except ε α) >>= f = Except.error e := rfl

@[simp] theorem except_bind_ok {ε α β : Type} (a : α) (f : α → Except ε β) :
    (Except.ok a : Except ε α) >>= f = f a := rfl

/-- A test-case element carrying both a failure child and a skipped child. -/
def bothMarkersCase : RawCase :=
  { name := some "testBoth", classname := some "source.MainTest", time := 0,
    failure := some { type_ := some "AssertionError", message := some "expected 1" },
    error := none, skipped := true }

/-- C1 counterexample: a test case with both a failure marker child and a
skipped marker child is NOT classified `FAILED` — the skipped check runs
after the failure check and overwrites the status with `SKIPPED`. -/
theorem both_markers_not_failed_cex :
    bothMarkersCase.failure.isSome = true ∧
    bothMarkersCase.skipped = true ∧
    (mkTestInfo "Suite" bothMarkersCase).status ≠ Status.FAILED ∧
    (mkTestInfo "Suite" bothMarkersCase).status = Status.SKIPPED := by decide

/-- C1 (amended): the skipped classification takes precedence — any test
case with a skipped marker child is classified `SKIPPED`, even when a
failure or error marker child is also present (whose kind/message
attributes are still captured). -/
theorem skipped_overrides_failure (s : String) (c : RawCase)
    (h : c.skipped = true) :
    (mkTestInfo s c).status = Status.SKIPPED := by
  simp only [mkTestInfo, h, if_true]

theorem skipped_overrides_failure_witness :
    (mkTestInfo "Suite" bothMarkersCase).status = Status.SKIPPED :=
  skipped_overrides_failure "Suite" bothMarkersCase rfl

/-- C2 counterexample: a present ResultSet with `total = 0` — produced for
instance by a results directory that exists but contains no XML files — is
truthy (the dict is non-empty), so `print_detailed_test_report` reaches the
percentage computation and raises `ZeroDivisionError`; no "N/A" placeholder
is printed. -/
theorem report_divzero_cex :
    print_detailed_test_report (some (parseDocs [])) =
      Except.error "ZeroDivisionError" := by
  have h : (parseDocs []).total = 0 := rfl
  simp [print_detailed_test_report, pyDiv, h]

/-- C2 (amended): `print_detailed_test_report` avoids division only for an
absent (falsy) results object; for a present ResultSet it raises
`ZeroDivisionError` exactly when `total = 0`, and for `total ≠ 0` it
computes the three percentages with no division error. -/
theorem report_division_behavior (r : Results) :
    print_detailed_test_report none = Except.ok none ∧
    (r.total = 0 →
      print_detailed_test_report (some r) = Except.error "ZeroDivisionError") ∧
    (r.total ≠ 0 →
      print_detailed_test_report (some r) = Except.ok (some
        { passedPct := (r.passed : ℚ) / (r.total : ℚ) * 100
          failedPct := (r.failed : ℚ) / (r.total : ℚ) * 100
          skippedPct := (r.skipped : ℚ) / (r.total : ℚ) * 100
          table := sortTests r.tests })) := by
  refine ⟨rfl, ?_, ?_⟩
  · intro h
    have h0 : ((r.total : ℚ)) = 0 := by exact_mod_cast h
    simp [print_detailed_test_report, pyDiv, h0]
  · intro h
    have h0 : ((r.total : ℚ)) ≠ 0 := by exact_mod_cast h
    simp [print_detailed_test_report, pyDiv, h0]

theorem report_division_behavior_witness :
    print_detailed_test_report (some (parseDocs [suiteA])) = Except.ok (some
      { passedPct := (((parseDocs [suiteA]).passed : ℚ) /
          ((parseDocs [suiteA]).total : ℚ) * 100)
        failedPct := (((parseDocs [suiteA]).failed : ℚ) /
          ((parseDocs [suiteA]).total : ℚ) * 100)
        skippedPct := (((parseDocs [suiteA]).skipped : ℚ) /
          ((parseDocs [suiteA]).total : ℚ) * 100)
        table := sortTests (parseDocs [suiteA]).tests }) :=
  (report_division_behavior (parseDocs [suiteA])).2.2 (by decide)

/-- The sort key comparison is total. -/
theorem testLe_total : ∀ a b : TestInfo, testLe a b || testLe b a := by
  intro a b
  simp only [testLe, Bool.or_eq_true, Bool.and_eq_true, decide_eq_true_eq]
  rcases Nat.lt_trichotomy (statusRank a.status) (statusRank b.status) with h | h | h
  · exact Or.inl (Or.inl h)
  · rcases le_total (-a.time) (-b.time) with ht | ht
    · exact Or.inl (Or.inr ⟨h, ht⟩)
    · exact Or.inr (Or.inr ⟨h.symm, ht⟩)
  · exact Or.inr (Or.inl h)

/-- The sort key comparison is transitive. -/
theorem testLe_trans : ∀ a b c : TestInfo, testLe a b → testLe b c → testLe a c := by
  intro a b c hab hbc
  simp only [testLe, Bool.or_eq_true, Bool.and_eq_true, decide_eq_true_eq] at *
  rcases hab with h1 | ⟨h1, t1⟩ <;> rcases hbc with h2 | ⟨h2, t2⟩
  · exact Or.inl (h1.trans h2)
  · exact Or.inl (h2 ▸ h1)
  · exact Or.inl (h1 ▸ h2)
  · exact Or.inr ⟨h1.trans h2, t1.trans t2⟩

/-- C9: the Reporter's per-test table is a permutation of the input in
which every earlier entry has a status rank at most that of every later
entry (`FAILED` < `SKIPPED` < `PASSED`), entries of equal rank appear in
order of non-increasing elapsed time, and any two entries with equal sort
keys keep their original relative order (stability). -/
theorem report_table_sorted (tests : List TestInfo) :
    (sortTests tests).Perm tests ∧
    (sortTests tests).Pairwise (fun a b =>
      statusRank a.status < statusRank b.status ∨
        (statusRank a.status = statusRank b.status ∧ b.time ≤ a.time)) ∧
    (∀ a b : TestInfo, statusRank a.status = statusRank b.status →
      a.time = b.time → [a, b].Sublist tests → [a, b].Sublist (sortTests tests)) := by
  refine ⟨List.mergeSort_perm tests testLe, ?_, ?_⟩
  · have h := List.sorted_mergeSort testLe_trans testLe_total tests
    refine h.imp ?_
    intro a b hab
    simp only [testLe, Bool.or_eq_true, Bool.and_eq_true, decide_eq_true_eq,
      neg_le_neg_iff] at hab
    exact hab
  · intro a b hs ht hsub
    refine List.pair_sublist_mergeSort testLe_trans testLe_total ?_ hsub
    simp [testLe, hs, ht]

/-- A concrete skipped test-case record. -/
def tSkipA : TestInfo :=
  { suite := "S", name := "t1", className := "source.C", time := 1,
    status := Status.SKIPPED, failure_type := none, failure_message := none,
    error_type := none, error_message := none }

/-- A second skipped test-case record with the same sort key. -/
def tSkipB : TestInfo :=
  { suite := "S", name := "t2", className := "source.C", time := 1,
    status := Status.SKIPPED, failure_type := none, failure_message := none,
    error_type := none, error_message := none }

theorem report_table_sorted_witness :
    [tSkipA, tSkipB].Sublist (sortTests [tSkipA, tSkipB]) :=
  (report_table_sorted [tSkipA, tSkipB]).2.2 tSkipA tSkipB rfl rfl
    (List.Sublist.refl _)

/-- C6: comparing a ResultSet against itself yields all-zero metric
differences, empty identity-difference sets, and an empty
status-transition list. -/
theorem compare_self_zero (r : Results) (label : String) :
    (compare_test_results (some r) (some r) label).map (·.baseOnly) = some ∅ ∧
    (compare_test_results (some r) (some r) label).map (·.otherOnly) = some ∅ ∧
    (compare_test_results (some r) (some r) label).map (·.changes) = some [] ∧
    (compare_test_results (some r) (some r) label).map
      (fun rep => rep.metrics.all fun p => decide (p.2.2.2 = 0)) = some true := by
  refine ⟨by simp [compare_test_results], by simp [compare_test_results], ?_, ?_⟩
  · simp only [compare_test_results, Option.map_some', Option.some.injEq]
    rw [List.filterMap_eq_nil_iff]
    intro k hk
    cases hget : dictGet (test_methods r.tests) k with
    | none => rfl
    | some tb => simp
  · simp [compare_test_results, metricsOf]

/-- C7: every row of the Comparator's metrics table carries exactly the
per-side values that `get_metric_value` extracts, with the difference
computed as other-value minus base-value; and the pass-rate computation
guards the division with `total > 0`, so it never raises a division error
and yields 0 for a zero-total side. -/
theorem comparator_metric_deltas (base other : Results) (label : String)
    (rep : ComparisonReport)
    (hrep : compare_test_results (some base) (some other) label = some rep) :
    (∀ m o v d, (m, o, v, d) ∈ rep.metrics →
      get_metric_value (some base) m = some o ∧
      get_metric_value (some other) m = some v ∧ d = v - o) ∧
    (∀ r : Results, ∃ q, passRateChecked r = Except.ok q ∧
      q = if 0 < r.total then (r.passed : ℚ) / (r.total : ℚ) * 100 else 0) := by
  constructor
  · intro m o v d hm
    simp only [compare_test_results, Option.some.injEq] at hrep
    subst hrep
    simp only [metricsOf, List.map_cons, List.map_nil, List.mem_cons,
      List.not_mem_nil, or_false, Prod.mk.injEq] at hm
    rcases hm with h | h | h | h | h | h <;> obtain ⟨rfl, rfl, rfl, rfl⟩ := h <;>
      exact ⟨by simp [get_metric_value], by simp [get_metric_value], rfl⟩
  · intro r
    by_cases h : 0 < r.total
    · have h0 : ((r.total : ℚ)) ≠ 0 := by
        have hq : (0 : ℚ) < (r.total : ℚ) := by exact_mod_cast h
        exact hq.ne'
      exact ⟨(r.passed : ℚ) / (r.total : ℚ) * 100,
        by simp [passRateChecked, pyDiv, h, h0], by simp [h]⟩
    · exact ⟨0, by simp [passRateChecked, h], by simp [h]⟩

theorem comparator_metric_deltas_witness :
    get_metric_value (some (parseDocs [])) "Total Tests" =
      some (((parseDocs []).total : ℚ)) ∧
    get_metric_value (some (parseDocs [])) "Total Tests" =
      some (((parseDocs []).total : ℚ)) ∧
    ((parseDocs []).total : ℚ) - ((parseDocs []).total : ℚ) =
      ((parseDocs []).total : ℚ) - ((parseDocs []).total : ℚ) :=
  (comparator_metric_deltas (parseDocs []) (parseDocs []) "cmp" _ rfl).1
    "Total Tests" ((parseDocs []).total : ℚ) ((parseDocs []).total : ℚ)
    (((parseDocs []).total : ℚ) - ((parseDocs []).total : ℚ)) (by simp [metricsOf])

/-- Unfolding a dict lookup one entry at a time. -/
theorem dictGet_cons (p : String × TestInfo) (ps : List (String × TestInfo))
    (k : String) :
    dictGet (p :: ps) k = if p.1 = k then some p.2 else dictGet ps k := by
  by_cases h : p.1 = k
  · simp [dictGet, List.find?_cons_of_pos, h]
  · simp [dictGet, List.find?_cons_of_neg, h]

/-- Lookup in the value-replacing branch of `dictInsert`. -/
theorem dictGet_map_update (m : List (String × TestInfo)) (k' k : String)
    (v : TestInfo) :
    dictGet (m.map fun p => if p.1 = k' then (p.1, v) else p) k =
      if k = k' then (dictGet m k).map (fun _ => v) else dictGet m k := by
  induction m with
  | nil => simp [dictGet]
  | cons p ps ih =>
    rw [List.map_cons, dictGet_cons, dictGet_cons]
    by_cases hp : p.1 = k'
    · by_cases hk : k = k'
      · have hpk : p.1 = k := hp.trans hk.symm
        simp [hp, hpk, hk]
      · have hpk : p.1 ≠ k := fun hc => hk (hc.symm.trans hp)
        have hk2 : k' ≠ k := fun hc => hk hc.symm
        simp [hp, hpk, hk, hk2, ih]
    · by_cases hpk : p.1 = k
      · have hk : k ≠ k' := fun hc => hp (hpk.trans hc)
        simp [hp, hpk, hk]
      · simp [hp, hpk, ih]

/-- Lookup after a dict insertion: the inserted key now maps to the new
value, all other keys are untouched. -/
theorem dictGet_insert (m : List (String × TestInfo)) (k' k : String)
    (v : TestInfo) :
    dictGet (dictInsert m k' v) k = if k = k' then some v else dictGet m k := by
  unfold dictInsert
  by_cases hf : (m.find? fun p => decide (p.1 = k')).isSome
  · rw [if_pos hf, dictGet_map_update]
    by_cases hk : k = k'
    · subst hk
      have hks : (dictGet m k).isSome := by
        simpa [dictGet] using hf
      obtain ⟨w, hw⟩ := Option.isSome_iff_exists.mp hks
      simp [hw]
    · simp [hk]
  · rw [if_neg hf]
    have hnone : dictGet m k' = none := by
      simp only [dictGet]
      rw [Option.not_isSome_iff_eq_none.mp hf]
      rfl
    have happ : dictGet (m ++ [(k', v)]) k =
        (dictGet m k).or (dictGet [(k', v)] k) := by
      simp only [dictGet, List.find?_append]
      cases m.find? fun p => decide (p.1 = k) <;> simp
    rw [happ]
    by_cases hk : k = k'
    · subst hk
      rw [hnone]
      simp [dictGet_cons]
    · have hk2 : k' ≠ k := fun hc => hk hc.symm
      have hsingle : dictGet [(k', v)] k = none := by
        rw [dictGet_cons, if_neg hk2]
        rfl
      simp [hsingle, hk]

/-- The last element of a list with its head split off. -/
theorem getLast?_cons_or {α : Type} (a : α) (l : List α) :
    (a :: l).getLast? = l.getLast?.or (some a) := by
  rw [show a :: l = [a] ++ l from rfl, List.getLast?_append]
  rfl

/-- Lookup after folding test cases into the dict: a key present among the
folded tests maps to its last occurrence; otherwise the accumulator
answers. -/
theorem dictGet_foldl (tests : List TestInfo) (m : List (String × TestInfo))
    (k : String) :
    dictGet (tests.foldl (fun m t => dictInsert m (identityKey t) t) m) k =
      ((tests.filter fun x => decide (identityKey x = k)).getLast?).or
        (dictGet m k) := by
  induction tests generalizing m with
  | nil => simp
  | cons t ts ih =>
    rw [List.foldl_cons, ih, dictGet_insert]
    by_cases h : identityKey t = k
    · rw [if_pos h.symm, List.filter_cons_of_pos (by simp [h]), getLast?_cons_or]
      cases (ts.filter fun x => decide (identityKey x = k)).getLast? <;> simp
    · rw [if_neg (fun hc => h hc.symm), List.filter_cons_of_neg (by simp [h])]

/-- C10 core: the dict comprehension keyed by `class::name` keeps exactly
the last occurrence of every identity. -/
theorem dictGet_test_methods (tests : List TestInfo) (k : String) :
    dictGet (test_methods tests) k =
      (tests.filter fun x => decide (identityKey x = k)).getLast? := by
  rw [test_methods, dictGet_foldl]
  simp [dictGet]

/-- Removing an earlier duplicate changes no lookup. -/
theorem dictGet_dedup (l1 l2 : List TestInfo) (t : TestInfo)
    (h : ∃ u ∈ l2, identityKey u = identityKey t) (k : String) :
    dictGet (test_methods (l1 ++ t :: l2)) k =
      dictGet (test_methods (l1 ++ l2)) k := by
  rw [dictGet_test_methods, dictGet_test_methods, List.filter_append,
    List.filter_append]
  by_cases hk : identityKey t = k
  · rw [List.filter_cons_of_pos (by simp [hk])]
    obtain ⟨u, hu, hut⟩ := h
    have hu2 : u ∈ l2.filter fun x => decide (identityKey x = k) :=
      List.mem_filter.mpr ⟨hu, by simp [hut, hk]⟩
    have hne : l2.filter (fun x => decide (identityKey x = k)) ≠ [] :=
      List.ne_nil_of_mem hu2
    have hsome :
        ((l2.filter fun x => decide (identityKey x = k)).getLast?).isSome := by
      rw [Option.isSome_iff_ne_none]
      intro hc
      exact hne (List.getLast?_eq_none_iff.mp hc)
    obtain ⟨w, hw⟩ := Option.isSome_iff_exists.mp hsome
    rw [List.getLast?_append, List.getLast?_append, getLast?_cons_or, hw]
    rfl
  · rw [List.filter_cons_of_neg (by simp [hk])]

/-- Membership in the dict's key set is the same as a successful lookup. -/
theorem mem_keysOf (m : List (String × TestInfo)) (k : String) :
    k ∈ keysOf m ↔ (dictGet m k).isSome := by
  simp only [keysOf, List.mem_toFinset, List.mem_map, dictGet,
    Option.isSome_map', List.find?_isSome, decide_eq_true_eq]

/-- Removing an earlier duplicate changes the key set of the dict (as a
set) not at all. -/
theorem keysOf_dedup (l1 l2 : List TestInfo) (t : TestInfo)
    (h : ∃ u ∈ l2, identityKey u = identityKey t) :
    keysOf (test_methods (l1 ++ t :: l2)) = keysOf (test_methods (l1 ++ l2)) := by
  apply Finset.ext
  intro k
  rw [mem_keysOf, mem_keysOf, dictGet_dedup l1 l2 t h k]

/-- C10: the Comparator's dict keyed by `class::name` collapses duplicate
identities so that only the last occurrence survives (lookup is the last
matching test case), and removing an earlier duplicate changes neither the
lookups, nor the key set, nor the unique-test sets and status-transition
list that the comparison computes. -/
theorem comparator_duplicates_last_wins (l1 l2 : List TestInfo) (t : TestInfo)
    (h : ∃ u ∈ l2, identityKey u = identityKey t) :
    (∀ (tests : List TestInfo) (k : String),
      dictGet (test_methods tests) k =
        (tests.filter fun x => decide (identityKey x = k)).getLast?) ∧
    (∀ k, dictGet (test_methods (l1 ++ t :: l2)) k =
      dictGet (test_methods (l1 ++ l2)) k) ∧
    keysOf (test_methods (l1 ++ t :: l2)) = keysOf (test_methods (l1 ++ l2)) ∧
    (∀ (r other : Results) (label : String),
      (compare_test_results (some { r with tests := l1 ++ t :: l2 })
          (some other) label).map
          (fun rep => (rep.baseOnly, rep.otherOnly, rep.changes)) =
      (compare_test_results (some { r with tests := l1 ++ l2 })
          (some other) label).map
          (fun rep => (rep.baseOnly, rep.otherOnly, rep.changes))) := by
  have hget := dictGet_dedup l1 l2 t h
  have hkeys := keysOf_dedup l1 l2 t h
  refine ⟨dictGet_test_methods, hget, hkeys, ?_⟩
  intro r other label
  simp only [compare_test_results, Option.map_some', Option.some.injEq,
    Prod.mk.injEq]
  refine ⟨by rw [hkeys], by rw [hkeys], ?_⟩
  rw [hkeys]
  exact List.filterMap_congr fun k hk => by rw [hget k]

/-- An earlier record for identity `source.C::t1`. -/
def dupOld : TestInfo :=
  { suite := "S", name := "t1", className := "source.C", time := 2,
    status := Status.FAILED, failure_type := some "AssertionError",
    failure_message := some "expected 1", error_type := none,
    error_message := none }

/-- A later record for the same identity `source.C::t1`. -/
def dupNew : TestInfo :=
  { suite := "S", name := "t1", className := "source.C", time := 1,
    status := Status.PASSED, failure_type := none, failure_message := none,
    error_type := none, error_message := none }

theorem comparator_duplicates_last_wins_witness :
    dictGet (test_methods ([] ++ dupOld :: [dupNew])) "source.C::t1" =
      dictGet (test_methods ([] ++ [dupNew])) "source.C::t1" :=
  (comparator_duplicates_last_wins [] [dupNew] dupOld
      ⟨dupNew, List.mem_singleton_self dupNew, rfl⟩).2.1 "source.C::t1"

end RunObfuscator
